import Mathlib

/-!
Verification of the hortus API service layer (Go) against its specification.

The Go code is shallowly embedded: Go strings are byte lists (`GoStr`),
machine integers are `Int`/`Nat`, fallible operations return `Except`.
The UTF-8 layer mirrors Go's `unicode/utf8` package byte for byte, the
trimming layer mirrors `strings.TrimSpace`, and the handlers mirror
`api/handlers/handlers.go` with the persistence port
(`api/database/database.go`) modelled as a record of state-passing
operations over an abstract store state.
-/

/-- A Go string: a list of bytes (each < 256 in all uses). -/
abbrev GoStr := List Nat

/-- UTF-8 encoding of one code point (used to build byte lists from Lean
string literals, mirroring Go source literals which are UTF-8). -/
def charUtf8 (c : Nat) : GoStr :=
  if c < 0x80 then [c]
  else if c < 0x800 then [0xC0 + c / 64, 0x80 + c % 64]
  else if c < 0x10000 then [0xE0 + c / 4096, 0x80 + (c / 64) % 64, 0x80 + c % 64]
  else [0xF0 + c / 262144, 0x80 + (c / 4096) % 64, 0x80 + (c / 64) % 64, 0x80 + c % 64]

/-- Bytes of a Lean string literal, as Go would store it (UTF-8). -/
def strBytes (s : String) : GoStr := (s.data.map (fun c => charUtf8 c.toNat)).flatten

/-- Go `utf8.RuneError` (U+FFFD). -/
def runeError : Nat := 0xFFFD

/-- Go `utf8.first` table, condensed: for a leading byte that starts a
multi-byte sequence, the expected total size and the accepted range for
the second byte (`acceptRanges`). `none` for invalid leading bytes
(0x80-0xC1, 0xF5-0xFF). -/
def firstInfo (b0 : Nat) : Option (Nat × Nat × Nat) :=
  if 0xC2 ≤ b0 ∧ b0 ≤ 0xDF then some (2, 0x80, 0xBF)
  else if b0 = 0xE0 then some (3, 0xA0, 0xBF)
  else if 0xE1 ≤ b0 ∧ b0 ≤ 0xEC then some (3, 0x80, 0xBF)
  else if b0 = 0xED then some (3, 0x80, 0x9F)
  else if 0xEE ≤ b0 ∧ b0 ≤ 0xEF then some (3, 0x80, 0xBF)
  else if b0 = 0xF0 then some (4, 0x90, 0xBF)
  else if 0xF1 ≤ b0 ∧ b0 ≤ 0xF3 then some (4, 0x80, 0xBF)
  else if b0 = 0xF4 then some (4, 0x80, 0x8F)
  else none

/-- Go `utf8.DecodeRuneInString`: returns (rune, size). Size 0 only on the
empty string; invalid input decodes to (`runeError`, 1). All failure
branches of the Go original (short input, bad continuation byte, bad
leading byte) return (RuneError, 1), which the nested matches reproduce. -/
def decodeRune (s : GoStr) : Nat × Nat :=
  match s with
  | [] => (runeError, 0)
  | b0 :: rest =>
    if b0 < 0x80 then (b0, 1)
    else match firstInfo b0, rest with
      | some (2, lo, hi), b1 :: _ =>
        if lo ≤ b1 ∧ b1 ≤ hi then ((b0 % 32) * 64 + b1 % 64, 2) else (runeError, 1)
      | some (3, lo, hi), b1 :: b2 :: _ =>
        if (lo ≤ b1 ∧ b1 ≤ hi) ∧ (0x80 ≤ b2 ∧ b2 ≤ 0xBF) then
          ((b0 % 16) * 4096 + (b1 % 64) * 64 + b2 % 64, 3)
        else (runeError, 1)
      | some (4, lo, hi), b1 :: b2 :: b3 :: _ =>
        if (lo ≤ b1 ∧ b1 ≤ hi) ∧ (0x80 ≤ b2 ∧ b2 ≤ 0xBF) ∧ (0x80 ≤ b3 ∧ b3 ≤ 0xBF) then
          ((b0 % 8) * 262144 + (b1 % 64) * 4096 + (b2 % 64) * 64 + b3 % 64, 4)
        else (runeError, 1)
      | _, _ => (runeError, 1)

/-- Go `utf8.RuneStart`: true when a byte can begin an encoded rune. -/
def runeStart (b : Nat) : Bool := decide (¬(0x80 ≤ b ∧ b ≤ 0xBF))

/-- Backward scan of Go `utf8.DecodeLastRuneInString`: offset (0-based,
from the second-to-last byte, moving toward the front, at most 3 steps)
of the nearest byte that can start a rune. -/
def findStart (l : GoStr) (fuel : Nat) : Option Nat :=
  match fuel, l with
  | _, [] => none
  | 0, _ => none
  | fuel + 1, b :: rest =>
    if runeStart b then some 0 else (findStart rest fuel).map (· + 1)

/-- Go `utf8.DecodeLastRuneInString`: decodes the trailing rune. A trailing
ASCII byte is returned directly; otherwise the scan looks back at most
`utf8.UTFMax` bytes for a start byte and checks that the forward decode
from there consumes exactly the remaining bytes; every failure returns
(RuneError, 1), as in Go (the fell-through-the-limit case decodes a
sequence whose size can never reach the end, hence also (RuneError, 1)). -/
def decodeLastRune (s : GoStr) : Nat × Nat :=
  match s.reverse with
  | [] => (runeError, 0)
  | b0 :: tail =>
    if b0 < 0x80 then (b0, 1)
    else
      match findStart tail 3 with
      | none => (runeError, 1)
      | some j =>
        match decodeRune (s.drop (s.length - 2 - j)) with
        | (r, size) =>
          if s.length - 2 - j + size = s.length then (r, size) else (runeError, 1)

/-- Go `unicode.IsSpace`: the Unicode White_Space property. -/
def isSpace (r : Nat) : Bool :=
  decide ((9 ≤ r ∧ r ≤ 13) ∨ r = 32 ∨ r = 0x85 ∨ r = 0xA0 ∨ r = 0x1680 ∨
    (0x2000 ≤ r ∧ r ≤ 0x200A) ∨ r = 0x2028 ∨ r = 0x2029 ∨ r = 0x202F ∨
    r = 0x205F ∨ r = 0x3000)

theorem decodeRune_nil : decodeRune [] = (runeError, 0) := rfl

theorem decodeRune_snd_pos (b : Nat) (l : GoStr) : 1 ≤ (decodeRune (b :: l)).2 := by
  unfold decodeRune
  repeat' split
  all_goals simp_all [runeError]

theorem decodeLastRune_nil : decodeLastRune [] = (runeError, 0) := rfl

theorem decodeLastRune_snd_pos (b : Nat) (l : GoStr) :
    1 ≤ (decodeLastRune (b :: l)).2 := by
  unfold decodeLastRune
  repeat' split
  all_goals simp_all [runeError]
  all_goals omega

/-- Leading-whitespace trimming, the `TrimLeftFunc(s, unicode.IsSpace)`
part of Go `strings.TrimSpace`: drop the leading rune while it is white
space. The fuel argument only bounds the recursion; `s.length` is always
enough because every step consumes at least one byte (`trimLeftAux_congr`
below shows the result does not depend on any sufficient fuel). -/
def trimLeftAux (fuel : Nat) (s : GoStr) : GoStr :=
  match fuel with
  | 0 => s
  | fuel + 1 =>
    if (decodeRune s).2 = 0 then s
    else if isSpace (decodeRune s).1 then trimLeftAux fuel (s.drop (decodeRune s).2)
    else s

def trimLeft (s : GoStr) : GoStr := trimLeftAux s.length s

/-- Trailing-whitespace trimming, the `TrimRightFunc(s, unicode.IsSpace)`
part of Go `strings.TrimSpace`: drop the trailing rune (found by
`DecodeLastRuneInString`) while it is white space. -/
def trimRightAux (fuel : Nat) (s : GoStr) : GoStr :=
  match fuel with
  | 0 => s
  | fuel + 1 =>
    if (decodeLastRune s).2 = 0 then s
    else if isSpace (decodeLastRune s).1 then
      trimRightAux fuel (s.take (s.length - (decodeLastRune s).2))
    else s

def trimRight (s : GoStr) : GoStr := trimRightAux s.length s

/-- Go `strings.TrimSpace` (its ASCII fast path is semantically the
generic `TrimFunc(s, unicode.IsSpace)` = trim left, then trim right). -/
def trimSpace (s : GoStr) : GoStr := trimRight (trimLeft s)

theorem trimLeftAux_nil (fuel : Nat) : trimLeftAux fuel [] = [] := by
  cases fuel <;> simp [trimLeftAux, decodeRune_nil]

theorem trimRightAux_nil (fuel : Nat) : trimRightAux fuel [] = [] := by
  cases fuel <;> simp [trimRightAux, decodeLastRune_nil]

theorem decodeRune_snd_zero {s : GoStr} (h : (decodeRune s).2 = 0) : s = [] := by
  cases s with
  | nil => rfl
  | cons b l => have := decodeRune_snd_pos b l; omega

theorem decodeLastRune_snd_zero {s : GoStr} (h : (decodeLastRune s).2 = 0) : s = [] := by
  cases s with
  | nil => rfl
  | cons b l => have := decodeLastRune_snd_pos b l; omega

/-- The trimming recursion does not depend on the fuel, as long as the fuel
is at least the byte length. -/
theorem trimLeftAux_congr :
    ∀ (f₁ f₂ : Nat) (s : GoStr), s.length ≤ f₁ → s.length ≤ f₂ →
      trimLeftAux f₁ s = trimLeftAux f₂ s := by
  intro f₁
  induction f₁ with
  | zero =>
    intro f₂ s h₁ _
    have : s = [] := by cases s <;> simp_all
    subst this
    simp [trimLeftAux_nil]
  | succ f ih =>
    intro f₂ s h₁ h₂
    cases f₂ with
    | zero =>
      have : s = [] := by cases s <;> simp_all
      subst this
      simp [trimLeftAux_nil]
    | succ f₂ =>
      simp only [trimLeftAux]
      split
      · rfl
      · split
        · rename_i hz _
          have hs : s ≠ [] := by
            intro he; rw [he, decodeRune_nil] at hz; exact hz rfl
          have hpos : 1 ≤ (decodeRune s).2 := by
            cases s with
            | nil => exact absurd rfl hs
            | cons b l => exact decodeRune_snd_pos b l
          have hlen : (s.drop (decodeRune s).2).length ≤ f := by
            have : 1 ≤ s.length := by cases s <;> simp_all
            simp only [List.length_drop]
            omega
          have hlen₂ : (s.drop (decodeRune s).2).length ≤ f₂ := by
            have : 1 ≤ s.length := by cases s <;> simp_all
            simp only [List.length_drop]
            omega
          exact ih f₂ _ hlen hlen₂
        · rfl

theorem trimRightAux_congr :
    ∀ (f₁ f₂ : Nat) (s : GoStr), s.length ≤ f₁ → s.length ≤ f₂ →
      trimRightAux f₁ s = trimRightAux f₂ s := by
  intro f₁
  induction f₁ with
  | zero =>
    intro f₂ s h₁ _
    have : s = [] := by cases s <;> simp_all
    subst this
    simp [trimRightAux_nil]
  | succ f ih =>
    intro f₂ s h₁ h₂
    cases f₂ with
    | zero =>
      have : s = [] := by cases s <;> simp_all
      subst this
      simp [trimRightAux_nil]
    | succ f₂ =>
      simp only [trimRightAux]
      split
      · rfl
      · split
        · rename_i hz _
          have hs : s ≠ [] := by
            intro he; rw [he, decodeLastRune_nil] at hz; exact hz rfl
          have hpos : 1 ≤ (decodeLastRune s).2 := by
            cases s with
            | nil => exact absurd rfl hs
            | cons b l => exact decodeLastRune_snd_pos b l
          have h1 : 1 ≤ s.length := by cases s <;> simp_all
          have hlen : (s.take (s.length - (decodeLastRune s).2)).length ≤ f := by
            simp only [List.length_take]
            omega
          have hlen₂ : (s.take (s.length - (decodeLastRune s).2)).length ≤ f₂ := by
            simp only [List.length_take]
            omega
          exact ih f₂ _ hlen hlen₂
        · rfl

/-- One-step unfolding of `trimLeft`, independent of the fuel encoding. -/
theorem trimLeft_eq (s : GoStr) :
    trimLeft s =
      if (decodeRune s).2 = 0 then s
      else if isSpace (decodeRune s).1 then trimLeft (s.drop (decodeRune s).2)
      else s := by
  cases s with
  | nil => simp [trimLeft, trimLeftAux_nil, decodeRune_nil]
  | cons b l =>
    show trimLeftAux (l.length + 1) (b :: l) = _
    simp only [trimLeftAux]
    split
    · rfl
    · split
      · have hpos := decodeRune_snd_pos b l
        refine trimLeftAux_congr _ _ _ ?_ le_rfl
        simp only [List.length_drop, List.length_cons]
        omega
      · rfl

/-- One-step unfolding of `trimRight`, independent of the fuel encoding. -/
theorem trimRight_eq (s : GoStr) :
    trimRight s =
      if (decodeLastRune s).2 = 0 then s
      else if isSpace (decodeLastRune s).1 then
        trimRight (s.take (s.length - (decodeLastRune s).2))
      else s := by
  cases s with
  | nil => simp [trimRight, trimRightAux_nil, decodeLastRune_nil]
  | cons b l =>
    show trimRightAux ((b :: l).length) (b :: l) = _
    simp only [trimRightAux]
    split
    · rfl
    · split
      · have hpos := decodeLastRune_snd_pos b l
        refine trimRightAux_congr _ _ _ ?_ le_rfl
        simp only [List.length_take, List.length_cons]
        omega
      · rfl

example : trimSpace (strBytes "  rose  ") = strBytes "rose" := by decide
example : trimSpace (strBytes " ") = [] := by decide
example : trimSpace (strBytes "é") = strBytes "é" := by decide

/-- Go `utf8.ValidString`: the byte list is a concatenation of valid UTF-8
encodings (same `first`/`acceptRanges` tables as `DecodeRune`). -/
def validString (s : GoStr) : Bool :=
  match s with
  | [] => true
  | b0 :: rest =>
    if b0 < 0x80 then validString rest
    else match firstInfo b0, rest with
      | some (2, lo, hi), b1 :: r1 =>
        decide (lo ≤ b1 ∧ b1 ≤ hi) && validString r1
      | some (3, lo, hi), b1 :: b2 :: r2 =>
        decide ((lo ≤ b1 ∧ b1 ≤ hi) ∧ (0x80 ≤ b2 ∧ b2 ≤ 0xBF)) && validString r2
      | some (4, lo, hi), b1 :: b2 :: b3 :: r3 =>
        decide ((lo ≤ b1 ∧ b1 ≤ hi) ∧ (0x80 ≤ b2 ∧ b2 ≤ 0xBF) ∧
          (0x80 ≤ b3 ∧ b3 ≤ 0xBF)) && validString r3
      | _, _ => false

/-- Go `utf8.RuneCountInString`: number of runes obtained by forward
decoding (an invalid byte counts as one RuneError rune, as in Go). Fuel
bounds the recursion exactly as for the trimming functions. -/
def runeCountAux (fuel : Nat) (s : GoStr) : Nat :=
  match fuel with
  | 0 => 0
  | fuel + 1 =>
    if (decodeRune s).2 = 0 then 0
    else 1 + runeCountAux fuel (s.drop (decodeRune s).2)

def runeCount (s : GoStr) : Nat := runeCountAux s.length s

/-- Go `isAscii` from `api/handlers/handlers.go`: a `for range` loop over
the decoded runes, returning false on the first rune above
`unicode.MaxASCII` (127). An invalid byte decodes to RuneError (0xFFFD),
which is also above 127, exactly as in the Go loop. -/
def isAsciiAux (fuel : Nat) (s : GoStr) : Bool :=
  match fuel with
  | 0 => true
  | fuel + 1 =>
    if (decodeRune s).2 = 0 then true
    else if 127 < (decodeRune s).1 then false
    else isAsciiAux fuel (s.drop (decodeRune s).2)

def isAscii (s : GoStr) : Bool := isAsciiAux s.length s

/-- `nameMaxLen` from `api/handlers/handlers.go`. -/
def nameMaxLen : Nat := 255

/-- `sanitizeCommonName` from `api/handlers/handlers.go`: trim, then check
non-empty, byte length (Go `len`) at most 255, and valid UTF-8. -/
def sanitizeCommonName (name : GoStr) : Except String GoStr :=
  let s := trimSpace name
  if s.length = 0 then .error "Common name is empty"
  else if nameMaxLen < s.length then .error "Common name length is greater than 255"
  else if !(validString s) then .error "Common name is not UTF-8"
  else .ok s

/-- `sanitizeScientificName` from `api/handlers/handlers.go`: trim, then
check byte length (Go `len`) at most 255 and ASCII-only content. -/
def sanitizeScientificName (name : GoStr) : Except String GoStr :=
  let s := trimSpace name
  if nameMaxLen < s.length then .error "Scientific name length is greater than 255"
  else if !(isAscii s) then .error "Specific name is not ASCII"
  else .ok s

example : sanitizeCommonName (strBytes "  rose ") = .ok (strBytes "rose") := rfl
example : sanitizeCommonName (strBytes "   ") = .error "Common name is empty" := rfl
example : sanitizeCommonName (strBytes "névé") = .ok (strBytes "névé") := rfl
example : sanitizeCommonName [0xC3] = .error "Common name is not UTF-8" := rfl
example : sanitizeScientificName (strBytes "") = .ok [] := rfl
example : sanitizeScientificName (strBytes " Rosmarinus ") = .ok (strBytes "Rosmarinus") := rfl
example : sanitizeScientificName (strBytes "névé") = .error "Specific name is not ASCII" := rfl
example : runeCount (strBytes "névé") = 4 := rfl
example : (strBytes "névé").length = 6 := rfl

theorem firstInfo_sz {b0 sz lo hi : Nat} (h : firstInfo b0 = some (sz, lo, hi)) :
    sz = 2 ∨ sz = 3 ∨ sz = 4 := by
  unfold firstInfo at h
  split_ifs at h <;> simp_all

/-- Inversion of the leading-byte table: the information `firstInfo`
can return, with the ranges of leading byte and accepted second byte. -/
theorem firstInfo_inv {b0 sz lo hi : Nat} (h : firstInfo b0 = some (sz, lo, hi)) :
    (sz = 2 ∧ 0xC2 ≤ b0 ∧ b0 ≤ 0xDF ∧ lo = 0x80 ∧ hi = 0xBF) ∨
    (sz = 3 ∧ b0 = 0xE0 ∧ lo = 0xA0 ∧ hi = 0xBF) ∨
    (sz = 3 ∧ 0xE1 ≤ b0 ∧ b0 ≤ 0xEF ∧ 0x80 ≤ lo ∧ hi ≤ 0xBF) ∨
    (sz = 4 ∧ b0 = 0xF0 ∧ lo = 0x90 ∧ hi = 0xBF) ∨
    (sz = 4 ∧ 0xF1 ≤ b0 ∧ b0 ≤ 0xF4 ∧ 0x80 ≤ lo ∧ hi ≤ 0xBF) := by
  unfold firstInfo at h
  split_ifs at h <;> simp_all <;> omega

/-- Decoding a prefix yields the same rune or RuneError: truncation can
only turn a decode into a failure, never into a different rune. -/
theorem decodeRune_fst_take (b : Nat) (l : List Nat) (m : Nat) :
    (decodeRune ((b :: l).take (m + 1))).1 = (decodeRune (b :: l)).1 ∨
    (decodeRune ((b :: l).take (m + 1))).1 = runeError := by
  simp only [List.take_succ_cons]
  by_cases hb : b < 0x80
  · left; simp [decodeRune, hb]
  · rcases hfi : firstInfo b with _ | ⟨sz, lo, hi⟩
    · right; simp [decodeRune, hb, hfi]
    · rcases firstInfo_sz hfi with rfl | rfl | rfl
      · rcases l with _ | ⟨b1, l'⟩
        · right; simp [decodeRune, hb, hfi]
        · rcases m with _ | m
          · right; simp [decodeRune, hb, hfi]
          · simp only [List.take_succ_cons]
            simp only [decodeRune, hb, hfi]
            split <;> simp [runeError]
      · rcases l with _ | ⟨b1, _ | ⟨b2, l'⟩⟩
        · right; simp [decodeRune, hb, hfi]
        · right
          rcases m with _ | m <;> simp [decodeRune, hb, hfi]
        · rcases m with _ | _ | m
          · right; simp [decodeRune, hb, hfi]
          · right; simp [decodeRune, hb, hfi]
          · simp only [List.take_succ_cons]
            simp only [decodeRune, hb, hfi]
            split <;> simp [runeError]
      · rcases l with _ | ⟨b1, _ | ⟨b2, _ | ⟨b3, l'⟩⟩⟩
        · right; simp [decodeRune, hb, hfi]
        · right; rcases m with _ | m <;> simp [decodeRune, hb, hfi]
        · right; rcases m with _ | _ | m <;> simp [decodeRune, hb, hfi]
        · rcases m with _ | _ | _ | m
          · right; simp [decodeRune, hb, hfi]
          · right; simp [decodeRune, hb, hfi]
          · right; simp [decodeRune, hb, hfi]
          · simp only [List.take_succ_cons]
            simp only [decodeRune, hb, hfi]
            split <;> simp [runeError]

/-- A rune decoded from a non-ASCII leading byte is at least 0x80
(valid multi-byte runes by their value, failures because RuneError is). -/
theorem decodeRune_fst_high (b : Nat) (l : List Nat) (hb : ¬ b < 0x80) :
    0x80 ≤ (decodeRune (b :: l)).1 := by
  rcases hfi : firstInfo b with _ | ⟨sz, lo, hi⟩
  · simp [decodeRune, hb, hfi, runeError]
  · have hinv := firstInfo_inv hfi
    rcases firstInfo_sz hfi with rfl | rfl | rfl
    · rcases l with _ | ⟨b1, l'⟩
      · simp [decodeRune, hb, hfi, runeError]
      · simp only [decodeRune, hb, hfi, if_false]
        split
        · rename_i hcond
          simp only
          omega
        · simp [runeError]
    · rcases l with _ | ⟨b1, _ | ⟨b2, l'⟩⟩
      · simp [decodeRune, hb, hfi, runeError]
      · simp [decodeRune, hb, hfi, runeError]
      · simp only [decodeRune, hb, hfi, if_false]
        split
        · rename_i hcond
          simp only
          omega
        · simp [runeError]
    · rcases l with _ | ⟨b1, _ | ⟨b2, _ | ⟨b3, l'⟩⟩⟩
      · simp [decodeRune, hb, hfi, runeError]
      · simp [decodeRune, hb, hfi, runeError]
      · simp [decodeRune, hb, hfi, runeError]
      · simp only [decodeRune, hb, hfi, if_false]
        split
        · rename_i hcond
          simp only
          omega
        · simp [runeError]

/-- The Go `isAscii` loop is equivalent to: every byte is below 0x80.
(A multi-byte or invalid sequence always yields a rune above 127, and an
all-ASCII string decodes byte by byte.) -/
theorem isAsciiAux_eq_all :
    ∀ (f : Nat) (s : GoStr), s.length ≤ f →
      isAsciiAux f s = s.all (fun b => decide (b < 128)) := by
  intro f
  induction f with
  | zero =>
    intro s h
    have : s = [] := by cases s <;> simp_all
    subst this
    rfl
  | succ f ih =>
    intro s h
    cases s with
    | nil => simp [isAsciiAux, decodeRune_nil]
    | cons b l =>
      by_cases hb : b < 0x80
      · have hd : decodeRune (b :: l) = (b, 1) := by simp [decodeRune, hb]
        have hl : l.length ≤ f := by simp at h; omega
        have hnb : ¬(127 < b) := by omega
        simp [isAsciiAux, hd, hnb, ih l hl, hb]
      · have hhigh := decodeRune_fst_high b l hb
        have hpos := decodeRune_snd_pos b l
        have h127 : 127 < (decodeRune (b :: l)).1 := by omega
        have hz : ¬((decodeRune (b :: l)).2 = 0) := by omega
        simp [isAsciiAux, hz, h127, hb]

theorem isAscii_eq_all (s : GoStr) :
    isAscii s = s.all (fun b => decide (b < 128)) :=
  isAsciiAux_eq_all s.length s le_rfl

theorem isSpace_runeError : isSpace runeError = false := by decide

theorem trimLeftAux_length_le :
    ∀ (f : Nat) (s : GoStr), (trimLeftAux f s).length ≤ s.length := by
  intro f
  induction f with
  | zero => intro s; simp [trimLeftAux]
  | succ f ih =>
    intro s
    simp only [trimLeftAux]
    split
    · exact le_rfl
    · split
      · exact le_trans (ih _) (by simp)
      · exact le_rfl

theorem trimLeft_length_le (s : GoStr) : (trimLeft s).length ≤ s.length :=
  trimLeftAux_length_le s.length s

/-- `trimLeft` leaves a string unchanged exactly when the string is empty
or its leading rune is not white space. -/
theorem trimLeft_fix_iff (s : GoStr) :
    trimLeft s = s ↔ (s = [] ∨ isSpace (decodeRune s).1 = false) := by
  constructor
  · intro h
    cases s with
    | nil => exact Or.inl rfl
    | cons b l =>
      right
      by_contra hsp
      have hsp' : isSpace (decodeRune (b :: l)).1 = true := by
        cases hx : isSpace (decodeRune (b :: l)).1
        · exact absurd hx hsp
        · rfl
      have hpos := decodeRune_snd_pos b l
      have hz : ¬((decodeRune (b :: l)).2 = 0) := by omega
      rw [trimLeft_eq (b :: l), if_neg hz, if_pos hsp'] at h
      have hle := trimLeft_length_le ((b :: l).drop (decodeRune (b :: l)).2)
      have : ((b :: l).drop (decodeRune (b :: l)).2).length < (b :: l).length := by
        simp only [List.length_drop, List.length_cons]
        omega
      have := congrArg List.length h
      omega
  · intro h
    rcases h with rfl | h
    · exact trimLeftAux_nil _
    · rw [trimLeft_eq s]
      split
      · rfl
      · rw [if_neg (by simp [h])]

/-- A fixed point of `trimLeft` stays a fixed point under truncation:
the truncated leading rune is the same rune or RuneError, neither white
space. -/
theorem trimLeft_fix_take (s : GoStr) (m : Nat) (h : trimLeft s = s) :
    trimLeft (s.take m) = s.take m := by
  cases s with
  | nil => simp [trimLeftAux_nil, trimLeft]
  | cons b l =>
    cases m with
    | zero => simp [trimLeftAux_nil, trimLeft]
    | succ m =>
      rcases (trimLeft_fix_iff _).1 h with hnil | hsp
      · exact absurd hnil (by simp)
      · refine (trimLeft_fix_iff _).2 (Or.inr ?_)
        rcases decodeRune_fst_take b l m with heq | herr
        · rw [heq]; exact hsp
        · rw [herr]; exact isSpace_runeError

/-- `trimRight` is idempotent. -/
theorem trimRightN_fix : ∀ (n : Nat) (s : GoStr), s.length ≤ n →
    trimRight (trimRight s) = trimRight s := by
  intro n
  induction n with
  | zero =>
    intro s h
    have : s = [] := by cases s <;> simp_all
    subst this
    simp [trimRight, trimRightAux_nil]
  | succ n ih =>
    intro s h
    by_cases hz : (decodeLastRune s).2 = 0
    · have hs := decodeLastRune_snd_zero hz
      subst hs
      simp [trimRight, trimRightAux_nil]
    · by_cases hsp : isSpace (decodeLastRune s).1 = true
      · have hstep : trimRight s = trimRight (s.take (s.length - (decodeLastRune s).2)) := by
          rw [trimRight_eq s, if_neg hz, if_pos hsp]
        have hs : s ≠ [] := fun he => hz (by rw [he, decodeLastRune_nil])
        have hpos : 1 ≤ (decodeLastRune s).2 := by
          cases s with
          | nil => exact absurd rfl hs
          | cons b l => exact decodeLastRune_snd_pos b l
        have h1 : 1 ≤ s.length := by cases s <;> simp_all
        rw [hstep]
        refine ih _ ?_
        simp only [List.length_take]
        omega
      · have hstep : trimRight s = s := by
          rw [trimRight_eq s, if_neg hz]
          rw [if_neg (by simp_all)]
        rw [hstep]
        exact hstep

theorem trimRight_fix (s : GoStr) : trimRight (trimRight s) = trimRight s :=
  trimRightN_fix s.length s le_rfl

/-- `trimLeft` is idempotent. -/
theorem trimLeftN_fix : ∀ (n : Nat) (s : GoStr), s.length ≤ n →
    trimLeft (trimLeft s) = trimLeft s := by
  intro n
  induction n with
  | zero =>
    intro s h
    have : s = [] := by cases s <;> simp_all
    subst this
    simp [trimLeft, trimLeftAux_nil]
  | succ n ih =>
    intro s h
    by_cases hz : (decodeRune s).2 = 0
    · have hs := decodeRune_snd_zero hz
      subst hs
      simp [trimLeft, trimLeftAux_nil]
    · by_cases hsp : isSpace (decodeRune s).1 = true
      · have hstep : trimLeft s = trimLeft (s.drop (decodeRune s).2) := by
          rw [trimLeft_eq s, if_neg hz, if_pos hsp]
        have hs : s ≠ [] := fun he => hz (by rw [he, decodeRune_nil])
        have hpos : 1 ≤ (decodeRune s).2 := by
          cases s with
          | nil => exact absurd rfl hs
          | cons b l => exact decodeRune_snd_pos b l
        have h1 : 1 ≤ s.length := by cases s <;> simp_all
        rw [hstep]
        refine ih _ ?_
        simp only [List.length_drop]
        omega
      · have hstep : trimLeft s = s := by
          rw [trimLeft_eq s, if_neg hz]
          rw [if_neg (by simp_all)]
        rw [hstep]
        exact hstep

theorem trimLeft_fix (s : GoStr) : trimLeft (trimLeft s) = trimLeft s :=
  trimLeftN_fix s.length s le_rfl

/-- A fixed point of `trimLeft` remains one after `trimRight`. -/
theorem trimLeftN_of_trimRight : ∀ (n : Nat) (s : GoStr), s.length ≤ n →
    trimLeft s = s → trimLeft (trimRight s) = trimRight s := by
  intro n
  induction n with
  | zero =>
    intro s hn h
    have : s = [] := by cases s <;> simp_all
    subst this
    simp [trimRight, trimRightAux_nil, trimLeft, trimLeftAux_nil]
  | succ n ih =>
    intro s hn h
    by_cases hz : (decodeLastRune s).2 = 0
    · have hs := decodeLastRune_snd_zero hz
      subst hs
      simp [trimRight, trimRightAux_nil, trimLeft, trimLeftAux_nil]
    · by_cases hsp : isSpace (decodeLastRune s).1 = true
      · have hstep : trimRight s = trimRight (s.take (s.length - (decodeLastRune s).2)) := by
          rw [trimRight_eq s, if_neg hz, if_pos hsp]
        have hs : s ≠ [] := fun he => hz (by rw [he, decodeLastRune_nil])
        have hpos : 1 ≤ (decodeLastRune s).2 := by
          cases s with
          | nil => exact absurd rfl hs
          | cons b l => exact decodeLastRune_snd_pos b l
        have h1 : 1 ≤ s.length := by cases s <;> simp_all
        rw [hstep]
        refine ih _ ?_ (trimLeft_fix_take s _ h)
        simp only [List.length_take]
        omega
      · have hstep : trimRight s = s := by
          rw [trimRight_eq s, if_neg hz]
          rw [if_neg (by simp_all)]
        rw [hstep]
        exact h

/-- Go `strings.TrimSpace` is idempotent. -/
theorem trimSpace_idem (s : GoStr) : trimSpace (trimSpace s) = trimSpace s := by
  unfold trimSpace
  have h1 : trimLeft (trimRight (trimLeft s)) = trimRight (trimLeft s) :=
    trimLeftN_of_trimRight (trimLeft s).length (trimLeft s) le_rfl (trimLeft_fix s)
  rw [h1]
  exact trimRight_fix (trimLeft s)

/-- Error kinds of Go `strconv.Atoi` (`ErrSyntax` and `ErrRange`). -/
inductive AtoiErr where
  | badInput
  | outOfRange
deriving DecidableEq

/-- Digit loop of Go `strconv.ParseUint` (base 10): fails on the first
non-digit byte, otherwise accumulates the exact value. -/
def parseDigits : GoStr → Nat → Option Nat
  | [], acc => some acc
  | c :: rest, acc =>
    if 48 ≤ c ∧ c ≤ 57 then parseDigits rest (acc * 10 + (c - 48)) else none

/-- Go `math.MaxInt64`; `strconv.Atoi` parses with the platform int size,
taken as 64-bit here. -/
def maxInt64 : Nat := 2 ^ 63 - 1

/-- Go `strconv.Atoi`: optional single leading sign, decimal digits only,
with `ParseInt`'s exact 64-bit range check (the incremental cutoff test of
`ParseUint` flags exactly the mathematical out-of-range values). -/
def goAtoi (s : GoStr) : Except AtoiErr Int :=
  match s with
  | [] => .error .badInput
  | c :: rest =>
    if c = 43 ∨ c = 45 then
      match rest, parseDigits rest 0 with
      | [], _ => .error .badInput
      | _, none => .error .badInput
      | _, some v =>
        if c = 45 then
          if 2 ^ 63 < v then .error .outOfRange else .ok (-(v : Int))
        else
          if maxInt64 < v then .error .outOfRange else .ok (v : Int)
    else
      match parseDigits s 0 with
      | none => .error .badInput
      | some v => if maxInt64 < v then .error .outOfRange else .ok (v : Int)

/-- Rendering of a `strconv.NumError` as the handlers echo it
(`err.Error()`!). The `strconv.Quote` escaping of non-printable inputs is
not reproduced: every claim only inspects the status of these responses,
and the concrete inputs in this file are plain digits, which `Quote`
merely wraps in double quotes. -/
def atoiErrText (input : GoStr) (e : AtoiErr) : GoStr :=
  strBytes "strconv.Atoi: parsing " ++ [34] ++ input ++ [34] ++
    strBytes (match e with
      | .badInput => ": invalid syntax"
      | .outOfRange => ": value out of range")

example : goAtoi (strBytes "42") = .ok 42 := rfl
example : goAtoi (strBytes "-1") = .ok (-1) := rfl
example : goAtoi (strBytes "+0") = .ok 0 := rfl
example : goAtoi (strBytes "") = .error .badInput := rfl
example : goAtoi (strBytes "4a2") = .error .badInput := rfl
example : goAtoi (strBytes "9223372036854775807") = .ok 9223372036854775807 := rfl
example : goAtoi (strBytes "9223372036854775808") = .error .outOfRange := rfl
example : goAtoi (strBytes "-9223372036854775808") = .ok (-9223372036854775808) := rfl

/-- Spec-side definition (wording of claim C10): a decimal numeral with an
optional leading sign. -/
def specIsNumeral (s : GoStr) : Bool :=
  match s with
  | [] => false
  | c :: rest =>
    if c = 43 ∨ c = 45 then
      !(rest.isEmpty) && rest.all (fun d => decide (48 ≤ d ∧ d ≤ 57))
    else s.all (fun d => decide (48 ≤ d ∧ d ≤ 57))

/-- Spec-side value of a signed decimal numeral. -/
def specNumeralVal (s : GoStr) : Int :=
  match s with
  | [] => 0
  | c :: rest =>
    if c = 45 then -((rest.foldl (fun a d => a * 10 + (d - 48)) 0 : Nat) : Int)
    else if c = 43 then ((rest.foldl (fun a d => a * 10 + (d - 48)) 0 : Nat) : Int)
    else ((s.foldl (fun a d => a * 10 + (d - 48)) 0 : Nat) : Int)

theorem parseDigits_all :
    ∀ (l : GoStr) (acc : Nat), l.all (fun d => decide (48 ≤ d ∧ d ≤ 57)) = true →
      parseDigits l acc = some (l.foldl (fun a d => a * 10 + (d - 48)) acc) := by
  intro l
  induction l with
  | nil => intro acc _; rfl
  | cons c rest ih =>
    intro acc h
    simp only [List.all_cons, Bool.and_eq_true, decide_eq_true_eq] at h
    simp only [parseDigits, if_pos h.1, List.foldl_cons]
    exact ih _ h.2

/-- `strconv.Atoi` accepts every signed decimal numeral whose value fits in
a signed 64-bit integer, and returns its value. -/
theorem goAtoi_numeral (s : GoStr) (h : specIsNumeral s = true)
    (hlo : -(2 ^ 63 : Int) ≤ specNumeralVal s)
    (hhi : specNumeralVal s ≤ (maxInt64 : Int)) :
    goAtoi s = .ok (specNumeralVal s) := by
  cases s with
  | nil => simp [specIsNumeral] at h
  | cons c rest =>
    by_cases hsign : c = 43 ∨ c = 45
    · simp only [specIsNumeral, if_pos hsign, Bool.and_eq_true] at h
      have hne : rest ≠ [] := by
        cases rest
        · simp at h
        · simp
      have hpd := parseDigits_all rest 0 h.2
      by_cases hneg : c = 45
      · have hval : specNumeralVal (c :: rest) =
            -((rest.foldl (fun a d => a * 10 + (d - 48)) 0 : Nat) : Int) := by
          simp [specNumeralVal, hneg]
        rw [hval] at hlo hhi
        simp only [goAtoi, if_pos hsign]
        cases rest with
        | nil => exact absurd rfl hne
        | cons d ds =>
          rw [hpd]
          simp only [if_pos hneg]
          rw [if_neg (by push_cast at hlo ⊢; omega)]
          rw [hval]
      · have hplus : c = 43 := by tauto
        have hval : specNumeralVal (c :: rest) =
            ((rest.foldl (fun a d => a * 10 + (d - 48)) 0 : Nat) : Int) := by
          simp [specNumeralVal, hplus]
        rw [hval] at hlo hhi
        simp only [goAtoi, if_pos hsign]
        cases rest with
        | nil => exact absurd rfl hne
        | cons d ds =>
          rw [hpd]
          simp only [if_neg hneg]
          rw [if_neg (by unfold maxInt64 at hhi ⊢; push_cast at hhi ⊢; omega)]
          rw [hval]
    · simp only [specIsNumeral, if_neg hsign] at h
      have hval : specNumeralVal (c :: rest) =
          (((c :: rest).foldl (fun a d => a * 10 + (d - 48)) 0 : Nat) : Int) := by
        have h43 : ¬(c = 45) := fun hc => hsign (Or.inr hc)
        have h45 : ¬(c = 43) := fun hc => hsign (Or.inl hc)
        simp [specNumeralVal, h43, h45]
      rw [hval] at hhi
      simp only [goAtoi, if_neg hsign, parseDigits_all _ 0 h]
      rw [if_neg (by unfold maxInt64 at hhi ⊢; push_cast at hhi ⊢; omega)]
      rw [hval]

/-- `internal/plants.PlantShortDesc`. -/
structure PlantShortDesc where
  id : Int
  commonName : GoStr
deriving DecidableEq

/-- `internal/plants.PlantLog`. -/
structure PlantLog where
  id : Int
  plantId : Int
  desc : GoStr
  eventType : Int
deriving DecidableEq

/-- `internal/plants.Plant`. -/
structure Plant where
  id : Int
  commonName : GoStr
  genericName : GoStr
  specificName : GoStr
  logs : List PlantLog
deriving DecidableEq

/-- The persistence port `database.Database`, as state-passing operations
over an abstract store state `σ` (Go errors become `Except GoStr`; the
write operations return the updated state). `Connect`/`Close` manage the
connection lifecycle and are modelled separately (`pgConnect`). -/
structure Database (σ : Type) where
  getPlantsShortDescription : σ → Except GoStr (List PlantShortDesc)
  addNewPlant : σ → GoStr → GoStr → GoStr → Except GoStr (Int × σ)
  getPlantNames : σ → Int → Except GoStr (GoStr × GoStr × GoStr)
  getPlantLogs : σ → Int → Except GoStr (List PlantLog)
  addNewPlantLog : σ → Int → GoStr → Int → Except GoStr σ

/-- An inbound HTTP request as the handlers consume it: the method, the
`{id}` path segment (`r.PathValue`), and the outcome of `r.ParseForm()`
(`.ok` carries the parsed form; `.error` is a parse failure with its
message). -/
structure Request where
  method : String
  pathId : GoStr := []
  formResult : Except GoStr (List (String × GoStr)) := .ok []

/-- Go `url.Values.Get`: first value for the key, or empty. -/
def formGet (form : List (String × GoStr)) (key : String) : GoStr :=
  match form.find? (fun p => p.1 == key) with
  | some p => p.2
  | none => []

/-- The observable response: status (implicit 200 unless written), the
headers the handler set, and the body bytes it wrote. -/
structure Response where
  status : Nat := 200
  headers : List (String × String) := []
  body : GoStr := []
deriving DecidableEq

/-- Go `http.Header.Set`. -/
def setHeader (hs : List (String × String)) (k v : String) : List (String × String) :=
  if hs.any (fun p => p.1 == k) then
    hs.map (fun p => if p.1 == k then (k, v) else p)
  else hs ++ [(k, v)]

/-- `notAllowed` from `api/handlers/handlers.go`. -/
def notAllowed : GoStr := strBytes "Method not allowed"

/-- Go `http.Error(w, msg, code)`: text/plain + nosniff headers, the given
status, and the message written with `fmt.Fprintln` (so a trailing
newline byte). -/
def httpError (msg : GoStr) (code : Nat) : Response :=
  { status := code,
    headers := setHeader (setHeader [] "Content-Type" "text/plain; charset=utf-8")
      "X-Content-Type-Options" "nosniff",
    body := msg ++ [10] }

/-- The Content-Length the response goes out with: the explicit header if
the handler set one, otherwise net/http fills it in from the buffered
body bytes the handler wrote. -/
def respContentLength (r : Response) : Nat :=
  match r.headers.find? (fun p => p.1 == "Content-Length") with
  | some p => (p.2.toNat?).getD 0
  | none => r.body.length

def hexDigit (n : Nat) : Nat := if n < 10 then 48 + n else 87 + n

/-- String escaping of `encoding/json` (HTML escaping on, as with a
default `json.Encoder`): quote, backslash and the control characters are
escaped, `<`, `>`, `&` become `\u00XX`, an invalid byte becomes the
literal escape `�`, U+2028/U+2029 become ` `/` `, and any
other rune keeps its UTF-8 bytes. -/
def jsonEscapeAux (fuel : Nat) (s : GoStr) : GoStr :=
  match fuel with
  | 0 => []
  | fuel + 1 =>
    if (decodeRune s).2 = 0 then []
    else
      let r := (decodeRune s).1
      let rest := s.drop (decodeRune s).2
      if r < 0x80 then
        (if r = 34 then [92, 34]
         else if r = 92 then [92, 92]
         else if r = 10 then [92, 110]
         else if r = 13 then [92, 114]
         else if r = 9 then [92, 116]
         else if r < 32 ∨ r = 60 ∨ r = 62 ∨ r = 38 then
           [92, 117, 48, 48, hexDigit (r / 16), hexDigit (r % 16)]
         else [r]) ++ jsonEscapeAux fuel rest
      else if r = runeError ∧ (decodeRune s).2 = 1 then
        strBytes "\\ufffd" ++ jsonEscapeAux fuel rest
      else if r = 0x2028 ∨ r = 0x2029 then
        (strBytes "\\u202" ++ [hexDigit (r % 16)]) ++ jsonEscapeAux fuel rest
      else s.take (decodeRune s).2 ++ jsonEscapeAux fuel rest

def jsonString (s : GoStr) : GoStr := [34] ++ jsonEscapeAux s.length s ++ [34]

def jsonInt (i : Int) : GoStr := strBytes (toString i)

def jsonShortDesc (p : PlantShortDesc) : GoStr :=
  strBytes "\x7b\"id\":" ++ jsonInt p.id ++ strBytes ",\"common_name\":" ++
    jsonString p.commonName ++ strBytes "\x7d"

/-- `encoding/json` for `[]plants.PlantShortDesc` (pgx `CollectRows`
always returns a non-nil slice, so an empty result encodes as `[]`). -/
def jsonShortDescList (ps : List PlantShortDesc) : GoStr :=
  strBytes "[" ++ ((ps.map jsonShortDesc).intersperse (strBytes ",")).flatten ++ strBytes "]"

def jsonPlantLog (l : PlantLog) : GoStr :=
  strBytes "\x7b\"id\":" ++ jsonInt l.id ++ strBytes ",\"plant_id\":" ++ jsonInt l.plantId ++
    strBytes ",\"desc\":" ++ jsonString l.desc ++ strBytes ",\"event_type\":" ++
    jsonInt l.eventType ++ strBytes "\x7d"

def jsonPlant (p : Plant) : GoStr :=
  strBytes "\x7b\"id\":" ++ jsonInt p.id ++ strBytes ",\"common_name\":" ++
    jsonString p.commonName ++ strBytes ",\"generic_name\":" ++ jsonString p.genericName ++
    strBytes ",\"specific_name\":" ++ jsonString p.specificName ++ strBytes ",\"logs\":[" ++
    ((p.logs.map jsonPlantLog).intersperse (strBytes ",")).flatten ++ strBytes "]\x7d"

/-- `handlers.PlantsListHandler`. JSON marshaling of these types cannot
fail (strings always encode, invalid bytes are replaced), so
`json.Encoder.Encode` is modelled as total: its error branch in the Go
code is only reachable through a broken connection, outside this model.
`Encode` appends a newline to the marshaled value. -/
def plantsListHandler {σ : Type} (db : Database σ) (st : σ) (r : Request) : Response × σ :=
  if r.method ≠ "HEAD" ∧ r.method ≠ "GET" then (httpError notAllowed 405, st)
  else
    match db.getPlantsShortDescription st with
    | .error e => (httpError e 500, st)
    | .ok plants =>
      let resp : Response :=
        { headers := setHeader [] "Content-Type" "application/json; charset=utf-8" }
      if r.method = "GET" then
        ({ resp with body := jsonShortDescList plants ++ [10] }, st)
      else (resp, st)

/-- `handlers.NewPlantHandler`. -/
def newPlantHandler {σ : Type} (db : Database σ) (st : σ) (r : Request) : Response × σ :=
  if r.method ≠ "POST" then (httpError notAllowed 405, st)
  else
    match r.formResult with
    | .error e => (httpError e 400, st)
    | .ok form =>
      match sanitizeCommonName (formGet form "common-name") with
      | .error e => (httpError (strBytes e) 400, st)
      | .ok comm =>
        match sanitizeScientificName (formGet form "generic-name") with
        | .error e => (httpError (strBytes e) 400, st)
        | .ok gen =>
          match sanitizeScientificName (formGet form "specific-name") with
          | .error e => (httpError (strBytes e) 400, st)
          | .ok spe =>
            match db.addNewPlant st comm gen spe with
            | .error e => (httpError e 500, st)
            | .ok (id, st') =>
              ({ headers := setHeader
                    (setHeader [] "Content-Type" "text/html; charset=utf-8")
                    "Content-Length" (toString (toString id).length),
                 body := strBytes (toString id) }, st')

/-- `handlers.PlantInfoHandler`. -/
def plantInfoHandler {σ : Type} (db : Database σ) (st : σ) (r : Request) : Response × σ :=
  if r.method ≠ "GET" ∧ r.method ≠ "HEAD" then (httpError notAllowed 405, st)
  else
    match goAtoi r.pathId with
    | .error e => (httpError (atoiErrText r.pathId e) 400, st)
    | .ok id =>
      match db.getPlantNames st id with
      | .error e => (httpError e 500, st)
      | .ok (comm, gen, spe) =>
        match db.getPlantLogs st id with
        | .error e => (httpError e 500, st)
        | .ok logs =>
          let resp : Response :=
            { headers := setHeader [] "Content-Type" "application/json; charset=utf-8" }
          if r.method = "GET" then
            ({ resp with body := jsonPlant ⟨id, comm, gen, spe, logs⟩ ++ [10] }, st)
          else (resp, st)

/-- `handlers.NewPlantLogHandler`: the description field is passed raw
(no sanitization), the event type is the constant 0, and on success only
the content-type header is set (no body, implicit 200). -/
def newPlantLogHandler {σ : Type} (db : Database σ) (st : σ) (r : Request) : Response × σ :=
  if r.method ≠ "POST" then (httpError notAllowed 405, st)
  else
    match r.formResult with
    | .error e => (httpError e 400, st)
    | .ok form =>
      match goAtoi r.pathId with
      | .error e => (httpError (atoiErrText r.pathId e) 400, st)
      | .ok id =>
        match db.addNewPlantLog st id (formGet form "new-entry") 0 with
        | .error e => (httpError e 500, st)
        | .ok st' =>
          ({ headers := setHeader [] "Content-Type" "text/html; charset=utf-8" }, st')

/-- A row of the `plant` table (`init_hortus_db.sql`). -/
structure PlantRow where
  id : Int
  commonName : GoStr
  genericName : GoStr
  specificName : GoStr
deriving DecidableEq

/-- The relational store owned by the adapter: the two tables of
`init_hortus_db.sql` plus their SERIAL sequences. -/
structure Store where
  plants : List PlantRow := []
  logs : List PlantLog := []
  nextPlantId : Int := 1
  nextLogId : Int := 1
deriving DecidableEq

/-- Message of `pgx.ErrNoRows`, what `row.Scan` returns when a `QueryRow`
matched nothing. -/
def errNoRows : GoStr := strBytes "no rows in result set"

/-- A text value Postgres accepts into a `VARCHAR(255)` column: valid
UTF-8 (the server encoding) and at most 255 characters (code points). -/
def pgTextOk (s : GoStr) : Bool := validString s && decide (runeCount s ≤ 255)

/-- The `PostgresDatabase` adapter operations
(`api/database`, adapter methods in the repository), evaluated against an
in-memory image of the store with the constraints of
`init_hortus_db.sql`: `SELECT id, common_name FROM plant` for the listing;
`SELECT * FROM plant WHERE id=$1` + `Scan` for the names (no row →
`pgx.ErrNoRows`); `SELECT * FROM plant_log WHERE plant_id=$1` for the
logs (no rows → empty slice, not an error); the two `INSERT ...
RETURNING id` statements, which enforce the VARCHAR(255) bounds, the
`common_name <> ''` check and the `plant_id` foreign key. -/
def memDb : Database Store where
  getPlantsShortDescription st :=
    .ok (st.plants.map (fun p => ⟨p.id, p.commonName⟩))
  addNewPlant st comm gen spe :=
    if ¬(pgTextOk comm ∧ pgTextOk gen ∧ pgTextOk spe) then
      .error (strBytes "ERROR: invalid input for type character varying(255)")
    else if comm = [] then
      .error (strBytes "ERROR: new row for relation plant violates check constraint")
    else
      .ok (st.nextPlantId,
        { st with
          plants := st.plants ++ [⟨st.nextPlantId, comm, gen, spe⟩],
          nextPlantId := st.nextPlantId + 1 })
  getPlantNames st id :=
    match st.plants.find? (fun p => p.id == id) with
    | none => .error errNoRows
    | some p => .ok (p.commonName, p.genericName, p.specificName)
  getPlantLogs st id := .ok (st.logs.filter (fun l => l.plantId == id))
  addNewPlantLog st id desc event :=
    if ¬(pgTextOk desc) then
      .error (strBytes "ERROR: invalid input for type character varying(255)")
    else if st.plants.any (fun p => p.id == id) then
      .ok { st with
            logs := st.logs ++ [⟨st.nextLogId, id, desc, event⟩],
            nextLogId := st.nextLogId + 1 }
    else
      .error (strBytes "ERROR: insert or update on table plant_log violates foreign key constraint")

/-- The process environment and store-side facts `PostgresDatabase.Connect`
depends on: the `HORTUS_DB_URL` variable (empty when unset), whether the
pool creation / the catalog query / the `SET search_path` round trips fail
(their error text if so), and the rows of `pg_tables` (schemaname,
tablename). -/
structure PgEnv where
  dbUrl : GoStr := []
  poolErr : Option GoStr := none
  pgTables : List (GoStr × GoStr) := []
  queryErr : Option GoStr := none
  execErr : Option GoStr := none

/-- The catalog check `Connect` runs, exactly as written in its SQL:
`SELECT EXISTS (SELECT FROM pg_tables WHERE schemaname = 'hortus_schema'
AND (tablename = 'plant' OR tablename = 'plant_log'))` — note the OR: it
is true as soon as at least one of the two tables exists. -/
def tablesExistQuery (tables : List (GoStr × GoStr)) : Bool :=
  tables.any (fun t =>
    t.1 == strBytes "hortus_schema" &&
      (t.2 == strBytes "plant" || t.2 == strBytes "plant_log"))

def connectErrNoUrl : GoStr := strBytes "database: Database URL not set"

def connectErrNoSchema : GoStr := strBytes "database: Schema and tables not found"

/-- `PostgresDatabase.Connect`: fail when `HORTUS_DB_URL` is unset, then
create the pool, run the existence query, fail with the schema-missing
error when it reports false, and switch the search path. (The `log.Fatal`
on a nil pool after a successful `pgxpool.New` is unreachable and not
modelled.) -/
def pgConnect (env : PgEnv) : Except GoStr Unit :=
  if env.dbUrl = [] then .error connectErrNoUrl
  else
    match env.poolErr with
    | some e => .error e
    | none =>
      match env.queryErr with
      | some e => .error e
      | none =>
        if !(tablesExistQuery env.pgTables) then .error connectErrNoSchema
        else
          match env.execErr with
          | some e => .error e
          | none => .ok ()

example :
    pgConnect { dbUrl := strBytes "postgres://x",
                pgTables := [(strBytes "hortus_schema", strBytes "plant"),
                             (strBytes "hortus_schema", strBytes "plant_log")] } = .ok () := rfl
example : pgConnect { dbUrl := [] } = .error connectErrNoUrl := rfl
example : pgConnect { dbUrl := strBytes "postgres://x" } = .error connectErrNoSchema := rfl

/-! Claim theorems. -/

/-- A common name of 128 copies of U+00E9 ("é"): 128 code points but 256
UTF-8 bytes. -/
def c1LongName : GoStr := (List.replicate 128 (strBytes "é")).flatten

set_option maxRecDepth 8192 in
/-- C1 is false as stated: this trimmed name has 128 code points (within
1..255) and is well-formed UTF-8, yet `sanitizeCommonName` rejects it
with the name-too-long error, because Go `len` measures bytes (256 here),
not code points. -/
theorem c1_counterexample :
    trimSpace c1LongName = c1LongName ∧
    validString c1LongName = true ∧
    runeCount c1LongName = 128 ∧
    c1LongName.length = 256 ∧
    sanitizeCommonName c1LongName = .error "Common name length is greater than 255" :=
  ⟨rfl, rfl, rfl, rfl, rfl⟩

/-- C1 (amended): `sanitizeCommonName` trims surrounding white space and
then fails with the empty-name error on a zero-length result, with the
name-too-long error when the trimmed BYTE length (Go `len`) exceeds 255,
with the invalid-encoding error when the trimmed text is not well-formed
UTF-8, and otherwise returns the trimmed string unchanged; in particular
every trimmed name of 1 to 255 bytes of well-formed UTF-8 is accepted. -/
theorem c1_theorem (name : GoStr) :
    (trimSpace name = [] → sanitizeCommonName name = .error "Common name is empty") ∧
    (1 ≤ (trimSpace name).length → (trimSpace name).length ≤ 255 →
      validString (trimSpace name) = true →
      sanitizeCommonName name = .ok (trimSpace name)) ∧
    (255 < (trimSpace name).length →
      sanitizeCommonName name = .error "Common name length is greater than 255") ∧
    (1 ≤ (trimSpace name).length → (trimSpace name).length ≤ 255 →
      validString (trimSpace name) = false →
      sanitizeCommonName name = .error "Common name is not UTF-8") := by
  refine ⟨?_, ?_, ?_, ?_⟩
  · intro h
    simp [sanitizeCommonName, h]
  · intro h1 h2 hv
    simp only [sanitizeCommonName, nameMaxLen]
    rw [if_neg (by omega), if_neg (by omega), if_neg (by simp [hv])]
  · intro h
    simp only [sanitizeCommonName, nameMaxLen]
    rw [if_neg (by omega), if_pos (by omega)]
  · intro h1 h2 hv
    simp only [sanitizeCommonName, nameMaxLen]
    rw [if_neg (by omega), if_neg (by omega), if_pos (by simp [hv])]

theorem c1_witness :
    sanitizeCommonName (strBytes " rosemary ") = .ok (trimSpace (strBytes " rosemary ")) ∧
    sanitizeCommonName (strBytes "  ") = .error "Common name is empty" :=
  ⟨(c1_theorem (strBytes " rosemary ")).2.1 (by decide) (by decide) (by decide),
   (c1_theorem (strBytes "  ")).1 (by decide)⟩

/-- C6: `sanitizeScientificName` trims, fails with the name-too-long error
above 255 (bytes, which coincides with characters for the ASCII subset it
otherwise accepts), fails with the non-ASCII error when any decoded
character exceeds code point 127 (equivalently: any byte is ≥ 0x80, since
multi-byte and invalid sequences both decode above 127), and otherwise
returns the trimmed string; the empty string is accepted. -/
theorem c6_theorem (name : GoStr) :
    (255 < (trimSpace name).length →
      sanitizeScientificName name = .error "Scientific name length is greater than 255") ∧
    ((trimSpace name).length ≤ 255 → isAscii (trimSpace name) = false →
      sanitizeScientificName name = .error "Specific name is not ASCII") ∧
    ((trimSpace name).length ≤ 255 → isAscii (trimSpace name) = true →
      sanitizeScientificName name = .ok (trimSpace name)) ∧
    (isAscii (trimSpace name) = false ↔ ∃ b ∈ trimSpace name, 127 < b) ∧
    sanitizeScientificName [] = .ok [] := by
  refine ⟨?_, ?_, ?_, ?_, rfl⟩
  · intro h
    simp only [sanitizeScientificName, nameMaxLen]
    rw [if_pos (by omega)]
  · intro h1 h2
    simp only [sanitizeScientificName, nameMaxLen]
    rw [if_neg (by omega), if_pos (by simp [h2])]
  · intro h1 h2
    simp only [sanitizeScientificName, nameMaxLen]
    rw [if_neg (by omega), if_neg (by simp [h2])]
  · rw [isAscii_eq_all, List.all_eq_false]
    constructor
    · rintro ⟨b, hb, hop⟩
      refine ⟨b, hb, ?_⟩
      simp at hop
      omega
    · rintro ⟨b, hb, hop⟩
      refine ⟨b, hb, ?_⟩
      simp
      omega

theorem c6_witness :
    sanitizeScientificName (strBytes " Rosmarinus ") = .ok (trimSpace (strBytes " Rosmarinus ")) ∧
    sanitizeScientificName (strBytes "é") = .error "Specific name is not ASCII" :=
  ⟨(c6_theorem (strBytes " Rosmarinus ")).2.2.1 (by decide) (by decide),
   (c6_theorem (strBytes "é")).2.1 (by decide) (by decide)⟩

/-- C9: both sanitizers are pure Lean functions (hence deterministic and
side-effect free), and idempotent: whenever a call succeeds, running the
function again on the returned string succeeds with the same string.
The core is `trimSpace_idem`: Go `strings.TrimSpace` is idempotent. -/
theorem c9_theorem (name s : GoStr) :
    (sanitizeCommonName name = .ok s → sanitizeCommonName s = .ok s) ∧
    (sanitizeScientificName name = .ok s → sanitizeScientificName s = .ok s) := by
  constructor
  · intro h
    simp only [sanitizeCommonName, nameMaxLen] at h
    split_ifs at h with h1 h2 h3
    simp only [Except.ok.injEq] at h
    subst h
    have hfix : trimSpace (trimSpace name) = trimSpace name := trimSpace_idem name
    simp only [sanitizeCommonName, nameMaxLen, hfix]
    rw [if_neg h1, if_neg h2, if_neg h3]
  · intro h
    simp only [sanitizeScientificName, nameMaxLen] at h
    split_ifs at h with h1 h2
    simp only [Except.ok.injEq] at h
    subst h
    have hfix : trimSpace (trimSpace name) = trimSpace name := trimSpace_idem name
    simp only [sanitizeScientificName, nameMaxLen, hfix]
    rw [if_neg h1, if_neg h2]

theorem c9_witness :
    sanitizeCommonName (strBytes "rosemary") = .ok (strBytes "rosemary") ∧
    sanitizeScientificName (strBytes "officinalis") = .ok (strBytes "officinalis") :=
  ⟨(c9_theorem (strBytes " rosemary ") (strBytes "rosemary")).1 (by rfl),
   (c9_theorem (strBytes " officinalis ") (strBytes "officinalis")).2 (by rfl)⟩

/-- C8: for each of the four routes, a method outside the allowed set is
answered 405 with the fixed "Method not allowed" message (written as a
line by `http.Error`), for EVERY database and store state, with the state
returned unchanged and before the path id or form body is looked at (the
request components beyond the method are arbitrary, including a failing
form parse or a garbage id). -/
theorem c8_theorem {σ : Type} (db : Database σ) (st : σ) (r : Request) :
    (r.method ≠ "HEAD" → r.method ≠ "GET" →
      plantsListHandler db st r = (httpError notAllowed 405, st) ∧
      plantInfoHandler db st r = (httpError notAllowed 405, st)) ∧
    (r.method ≠ "POST" →
      newPlantHandler db st r = (httpError notAllowed 405, st) ∧
      newPlantLogHandler db st r = (httpError notAllowed 405, st)) ∧
    (httpError notAllowed 405).status = 405 ∧
    (httpError notAllowed 405).body = strBytes "Method not allowed" ++ [10] := by
  refine ⟨?_, ?_, rfl, rfl⟩
  · intro h1 h2
    constructor
    · unfold plantsListHandler
      rw [if_pos ⟨h1, h2⟩]
    · unfold plantInfoHandler
      rw [if_pos ⟨h2, h1⟩]
  · intro h
    constructor
    · unfold newPlantHandler
      rw [if_pos h]
    · unfold newPlantLogHandler
      rw [if_pos h]

/-- A DELETE request with a garbage id and a failing form parse. -/
def c8ReqDelete : Request :=
  { method := "DELETE", pathId := strBytes "x", formResult := .error (strBytes "bad form") }

/-- A PUT request with a garbage id and a failing form parse. -/
def c8ReqPut : Request :=
  { method := "PUT", pathId := strBytes "x", formResult := .error (strBytes "bad form") }

theorem c8_witness :
    plantsListHandler memDb ({} : Store) c8ReqDelete = (httpError notAllowed 405, {}) ∧
    plantInfoHandler memDb ({} : Store) c8ReqDelete = (httpError notAllowed 405, {}) ∧
    newPlantHandler memDb ({} : Store) c8ReqPut = (httpError notAllowed 405, {}) ∧
    newPlantLogHandler memDb ({} : Store) c8ReqPut = (httpError notAllowed 405, {}) := by
  have h1 := c8_theorem memDb ({} : Store) c8ReqDelete
  have h2 := c8_theorem memDb ({} : Store) c8ReqPut
  exact ⟨(h1.1 (by decide) (by decide)).1, (h1.1 (by decide) (by decide)).2,
    (h2.2.1 (by decide)).1, (h2.2.1 (by decide)).2⟩

/-- C4: on a POST with a parseable form, the three fields are validated in
order common, generic, specific, short-circuiting at the first failure
with a 400 whose body is that validation message (as a line); this holds
for EVERY database, and the returned state is the incoming state, so
`addNewPlant` is never invoked and no plant row is created (any
subsequent list-plants call sees the same state). -/
theorem c4_theorem {σ : Type} (db : Database σ) (st : σ)
    (form : List (String × GoStr)) (r : Request)
    (hm : r.method = "POST") (hf : r.formResult = .ok form) :
    (∀ e, sanitizeCommonName (formGet form "common-name") = .error e →
      newPlantHandler db st r = (httpError (strBytes e) 400, st)) ∧
    (∀ comm e, sanitizeCommonName (formGet form "common-name") = .ok comm →
      sanitizeScientificName (formGet form "generic-name") = .error e →
      newPlantHandler db st r = (httpError (strBytes e) 400, st)) ∧
    (∀ comm gen e, sanitizeCommonName (formGet form "common-name") = .ok comm →
      sanitizeScientificName (formGet form "generic-name") = .ok gen →
      sanitizeScientificName (formGet form "specific-name") = .error e →
      newPlantHandler db st r = (httpError (strBytes e) 400, st)) := by
  refine ⟨?_, ?_, ?_⟩
  · intro e hs
    simp only [newPlantHandler, hf, hs]
    rw [if_neg (by simp [hm])]
  · intro comm e h1 h2
    simp only [newPlantHandler, hf, h1, h2]
    rw [if_neg (by simp [hm])]
  · intro comm gen e h1 h2 h3
    simp only [newPlantHandler, hf, h1, h2, h3]
    rw [if_neg (by simp [hm])]

theorem c4_witness :
    newPlantHandler memDb {}
      { method := "POST",
        formResult := .ok [("common-name", strBytes " "),
                           ("generic-name", strBytes "ok")] }
      = (httpError (strBytes "Common name is empty") 400, {}) :=
  (c4_theorem memDb ({} : Store)
    [("common-name", strBytes " "), ("generic-name", strBytes "ok")]
    { method := "POST",
      formResult := .ok [("common-name", strBytes " "), ("generic-name", strBytes "ok")] }
    rfl rfl).1 "Common name is empty" (by rfl)

/-- C5: on a GET whose path id parses, a failure of `getPlantNames` or of
`getPlantLogs` is answered 500 with the error text as body (for every
database); in particular, with the Postgres adapter over a store that has
no row for the id, `getPlantNames` fails with `pgx.ErrNoRows`, so a
nonexistent id gets the same 500 as any storage fault — never a 404. -/
theorem c5_theorem {σ : Type} (db : Database σ) (st : σ) (r : Request) (id : Int)
    (hm : r.method = "GET") (hp : goAtoi r.pathId = .ok id) :
    (∀ e, db.getPlantNames st id = .error e →
      plantInfoHandler db st r = (httpError e 500, st)) ∧
    (∀ comm gen spe e, db.getPlantNames st id = .ok (comm, gen, spe) →
      db.getPlantLogs st id = .error e →
      plantInfoHandler db st r = (httpError e 500, st)) ∧
    (∀ store : Store, store.plants.find? (fun p => p.id == id) = none →
      plantInfoHandler memDb store r = (httpError errNoRows 500, store)) := by
  refine ⟨?_, ?_, ?_⟩
  · intro e hs
    simp only [plantInfoHandler, hp, hs]
    rw [if_neg (by simp [hm])]
  · intro comm gen spe e h1 h2
    simp only [plantInfoHandler, hp, h1, h2]
    rw [if_neg (by simp [hm])]
  · intro store hfind
    simp only [plantInfoHandler, hp, memDb, hfind]
    rw [if_neg (by simp [hm])]

theorem c5_witness :
    plantInfoHandler memDb {} { method := "GET", pathId := strBytes "42" }
      = (httpError errNoRows 500, {}) :=
  (c5_theorem memDb ({} : Store) { method := "GET", pathId := strBytes "42" } 42
    rfl rfl).2.2 {} rfl

/-- C7: on a POST with parseable form and id, the handler hands
`addNewPlantLog` the raw "new-entry" field — unmodified, no sanitization
or trimming — together with the constant event type 0 (conjunct 2, for
every database: the response and new state are exactly those of that one
call); a store failure is answered 500 with the error text; on success
nothing is written to the body, only the content-type header is set and
the status stays the implicit 200 (conjunct 3, on the Postgres adapter
model: the appended row carries the raw description and event type 0). -/
theorem c7_theorem {σ : Type} (db : Database σ) (st : σ) (store : Store)
    (r : Request) (form : List (String × GoStr)) (id : Int)
    (hm : r.method = "POST") (hf : r.formResult = .ok form)
    (hp : goAtoi r.pathId = .ok id) :
    (∀ e, db.addNewPlantLog st id (formGet form "new-entry") 0 = .error e →
      newPlantLogHandler db st r = (httpError e 500, st)) ∧
    (∀ st', db.addNewPlantLog st id (formGet form "new-entry") 0 = .ok st' →
      newPlantLogHandler db st r =
        ({ status := 200,
           headers := setHeader [] "Content-Type" "text/html; charset=utf-8",
           body := [] }, st')) ∧
    (pgTextOk (formGet form "new-entry") = true →
      store.plants.any (fun p => p.id == id) = true →
      newPlantLogHandler memDb store r =
        ({ status := 200,
           headers := setHeader [] "Content-Type" "text/html; charset=utf-8",
           body := [] },
         { store with
           logs := store.logs ++ [⟨store.nextLogId, id, formGet form "new-entry", 0⟩],
           nextLogId := store.nextLogId + 1 })) := by
  refine ⟨?_, ?_, ?_⟩
  · intro e hs
    simp only [newPlantLogHandler, hf, hp, hs]
    rw [if_neg (by simp [hm])]
  · intro st' hs
    simp only [newPlantLogHandler, hf, hp, hs]
    rw [if_neg (by simp [hm])]
  · intro htext hany
    simp only [newPlantLogHandler, hf, hp, memDb]
    rw [if_neg (by simp [hm]), if_neg (by simp [htext]), if_pos hany]

/-- The store row and request of the C7 witness: one plant with id 1, and
a log POST whose description deliberately has surrounding spaces and
HTML-special characters — it is stored verbatim. -/
def c7Store : Store := { plants := [⟨1, strBytes "rosemary", [], []⟩], nextPlantId := 2 }

def c7Desc : GoStr := strBytes " watered <the plant> & pruned "

def c7Req : Request :=
  { method := "POST", pathId := strBytes "1", formResult := .ok [("new-entry", c7Desc)] }

theorem c7_witness :
    newPlantLogHandler memDb c7Store c7Req =
      ({ status := 200,
         headers := setHeader [] "Content-Type" "text/html; charset=utf-8",
         body := [] },
       { plants := [⟨1, strBytes "rosemary", [], []⟩], nextPlantId := 2,
         logs := [⟨1, 1, c7Desc, 0⟩], nextLogId := 2 }) := by
  have h := (c7_theorem memDb c7Store c7Store c7Req [("new-entry", c7Desc)] 1
    rfl rfl rfl).2.2 (by decide) (by decide)
  exact h

/-- C10 fails as stated: "99999999999999999999" is a decimal numeral with
no sign, but it exceeds the 64-bit integer range, so `strconv.Atoi`
range-errors and the plant-info handler answers 400, not a pass-through
to the persistence port. -/
theorem c10_counterexample :
    specIsNumeral (strBytes "99999999999999999999") = true ∧
    goAtoi (strBytes "99999999999999999999") = .error .outOfRange ∧
    (plantInfoHandler memDb ({} : Store)
      { method := "GET", pathId := strBytes "99999999999999999999" }).1.status = 400 :=
  ⟨rfl, rfl, rfl⟩

/-- C10 (amended): every signed decimal numeral whose value fits in a
signed 64-bit integer — including "0", "+0" and negatives such as "-1" —
parses successfully, so no 400 is possible; the resulting id, which may
be zero or negative, is handed unchanged to the persistence port with no
range or positivity check (conjunct 2), and the response of either
handler can then only be a 500 from a store failure or a success
(conjuncts 3 and 4). -/
theorem c10_theorem {σ : Type} (db : Database σ) (st : σ) (r : Request)
    (hnum : specIsNumeral r.pathId = true)
    (hlo : -(2 ^ 63 : Int) ≤ specNumeralVal r.pathId)
    (hhi : specNumeralVal r.pathId ≤ (maxInt64 : Int)) :
    goAtoi r.pathId = .ok (specNumeralVal r.pathId) ∧
    (r.method = "GET" → ∀ e, db.getPlantNames st (specNumeralVal r.pathId) = .error e →
      plantInfoHandler db st r = (httpError e 500, st)) ∧
    (r.method = "GET" →
      (plantInfoHandler db st r).1.status = 500 ∨ (plantInfoHandler db st r).1.status = 200) ∧
    (r.method = "POST" → ∀ form, r.formResult = .ok form →
      (newPlantLogHandler db st r).1.status = 500 ∨
        (newPlantLogHandler db st r).1.status = 200) := by
  have hp := goAtoi_numeral r.pathId hnum hlo hhi
  refine ⟨hp, ?_, ?_, ?_⟩
  · intro hm e hs
    simp only [plantInfoHandler, hp, hs]
    rw [if_neg (by simp [hm])]
  · intro hm
    simp only [plantInfoHandler, hp]
    rw [if_neg (by simp [hm])]
    rcases db.getPlantNames st (specNumeralVal r.pathId) with e | ⟨comm, gen, spe⟩
    · left; rfl
    · simp only
      rcases db.getPlantLogs st (specNumeralVal r.pathId) with e | logs
      · left; rfl
      · right
        simp only
        split <;> rfl
  · intro hm form hf
    simp only [newPlantLogHandler, hf, hp]
    rw [if_neg (by simp [hm])]
    rcases db.addNewPlantLog st (specNumeralVal r.pathId) (formGet form "new-entry") 0
      with e | st'
    · left; rfl
    · right; rfl

theorem c10_witness :
    goAtoi (strBytes "-1") = .ok (-1) ∧
    plantInfoHandler memDb ({} : Store) { method := "GET", pathId := strBytes "-1" }
      = (httpError errNoRows 500, {}) := by
  have h := c10_theorem memDb ({} : Store) { method := "GET", pathId := strBytes "-1" }
    (by decide) (by decide) (by decide)
  exact ⟨h.1, h.2.1 rfl errNoRows rfl⟩

/-- A database in which the `plant` table exists but `plant_log` does not. -/
def c2Env : PgEnv :=
  { dbUrl := strBytes "postgres://hortus",
    pgTables := [(strBytes "hortus_schema", strBytes "plant")] }

/-- C2: the ConfigMissing half holds — with the connection target unset,
`Connect` fails with the URL-not-set error before anything else, whatever
the rest of the environment (conjunct 1). The both-tables half does NOT
hold: the catalog check joins the two table names with OR, so with
`plant` present and `plant_log` absent (conjunct 3) `Connect`
nevertheless succeeds (conjunct 2), where the claim requires the
SchemaMissing failure. -/
theorem c2_theorem (env : PgEnv) :
    (env.dbUrl = [] → pgConnect env = .error connectErrNoUrl) ∧
    pgConnect c2Env = .ok () ∧
    c2Env.pgTables.all (fun t => !(t.2 == strBytes "plant_log")) = true := by
  refine ⟨?_, rfl, by decide⟩
  intro h
  simp [pgConnect, h]

theorem c2_witness : pgConnect ({} : PgEnv) = .error connectErrNoUrl :=
  (c2_theorem {}).1 rfl

/-- The store and responses of the C3 check: one plant row. -/
def c3Store : Store := { plants := [⟨1, strBytes "rosemary", [], []⟩], nextPlantId := 2 }

def c3Get : Response := (plantsListHandler memDb c3Store { method := "GET" }).1

def c3Head : Response := (plantsListHandler memDb c3Store { method := "HEAD" }).1

/-- C3 is wrong about the code (and the code contradicts its own doc
comment, which promises that HEAD "sets the content length"): on a
successful read the GET response carries the JSON serialization and goes
out with its length as content length, while the HEAD response writes no
body and sets no Content-Length header, so it goes out with content
length 0 — not the length of the GET serialization. -/
theorem c3_theorem :
    c3Get.body = jsonShortDescList [⟨1, strBytes "rosemary"⟩] ++ [10] ∧
    c3Head.body = [] ∧
    c3Get.status = 200 ∧
    c3Head.status = 200 ∧
    respContentLength c3Get = (jsonShortDescList [⟨1, strBytes "rosemary"⟩] ++ [10]).length ∧
    respContentLength c3Head = 0 ∧
    respContentLength c3Get ≠ respContentLength c3Head :=
  ⟨rfl, rfl, rfl, rfl, rfl, rfl, by decide⟩
